import Mathlib

/-!
Verification development for the wechat-mp-publisher repository.

Shallow embedding of the core components:
* `MarkdownConverter._preprocess_markdown` (converter.py): strikethrough
  preprocessing with a fenced-code-block flag (`preprocessAux`, `subDel`).
* `MarkdownConverter._clean_html` (converter.py): attribute scrub (`cleanTags`).
* `MarkdownConverter.convert` (converter.py): pipeline determinism model.
* `TokenManager.get_token` / `_fetch_token` (wechat_api.py): token cache.
* `retry_on_error` decorator and `WeChatAPI._request` / `upload_image`
  (wechat_api.py): retry policy and one-shot 40001 handling.
* `WeChatAPI.add_draft` payload construction (wechat_api.py).
* `ImageProcessor.process_html` (uploader.py): per-image upload loop.
-/

namespace WechatMP

/-! ## Strikethrough preprocessing (converter.py, `_preprocess_markdown`)

The Python code splits the text on newline, toggles an `in_code_block` flag
on every line whose stripped form starts with three backticks, and applies
`re.sub` with the lazy pattern tilde-tilde (.*?) tilde-tilde, replacing each
match by a del-element, on lines for which the flag is false after toggling. -/

/-- Characters stripped by Python `str.strip()` (ASCII whitespace). -/
def isPySpace (c : Char) : Bool :=
  c = ' ' || c = '\t' || c = '\n' || c = '\r' || c = '\x0b' || c = '\x0c'

/-- Model of Python `str.strip()` on a list of characters. -/
def pyStrip (l : List Char) : List Char :=
  ((l.dropWhile isPySpace).reverse.dropWhile isPySpace).reverse

/-- `line.strip().startswith('```')` from `_preprocess_markdown`. -/
def isFenceLine (l : List Char) : Bool :=
  (pyStrip l).take 3 = ['`', '`', '`']

/-- Lazy search for the first adjacent pair of tildes in `l`: returns the
characters before the pair and the characters after it.  This is how the
lazy group `(.*?)` of the substitution pattern finds its closing delimiter. -/
def findClose : List Char → Option (List Char × List Char)
  | c1 :: c2 :: rest =>
    if c1 = '~' ∧ c2 = '~' then some ([], rest)
    else
      match findClose (c2 :: rest) with
      | some (mid, r) => some (c1 :: mid, r)
      | none => none
  | _ => none

/-- Worker for the substitution, structurally recursive on a fuel argument.
Every step either advances past one character or past a whole match, so a
fuel equal to the input length is never exhausted. -/
def subDelAux : Nat → List Char → List Char
  | fuel + 1, c1 :: c2 :: rest =>
    if c1 = '~' ∧ c2 = '~' then
      match findClose rest with
      | some (mid, r) =>
        "<del>".toList ++ mid ++ "</del>".toList ++ subDelAux fuel r
      | none => c1 :: subDelAux fuel (c2 :: rest)
    else c1 :: subDelAux fuel (c2 :: rest)
  | _, l => l

/-- Model of `re.sub(r'~~(.*?)~~', r'<del>\1</del>', line)`: scan left to
right; at a position holding two tildes, lazily find the closing pair and
replace the match, continuing after it; otherwise advance one character. -/
def subDel (l : List Char) : List Char :=
  subDelAux l.length l

/-- The per-line loop of `_preprocess_markdown`: toggle the fenced-code flag
on fence lines, then rewrite strikethrough only when the flag is false. -/
def preprocessAux (inCode : Bool) : List (List Char) → List (List Char)
  | [] => []
  | l :: ls =>
    let inCode1 := if isFenceLine l then !inCode else inCode
    let out := if inCode1 then l else subDel l
    out :: preprocessAux inCode1 ls

/-- The fenced-code flag after scanning the given lines, starting at `b`. -/
def fenceState (b : Bool) : List (List Char) → Bool
  | [] => b
  | l :: ls => fenceState (if isFenceLine l then !b else b) ls

/-- `markdown_text.split('\n')` on a character list. -/
def splitLines : List Char → List (List Char)
  | [] => [[]]
  | c :: cs =>
    let r := splitLines cs
    if c = '\n' then [] :: r
    else (c :: r.headD []) :: r.tail

/-- `'\n'.join(result_lines)` on character lists. -/
def joinLines : List (List Char) → List Char
  | [] => []
  | [l] => l
  | l :: ls => l ++ '\n' :: joinLines ls

/-- `MarkdownConverter._preprocess_markdown` at the string level. -/
def preprocessMarkdown (text : String) : String :=
  (joinLines (preprocessAux false (splitLines text.toList))).asString

theorem preprocessAux_length (b : Bool) (ls : List (List Char)) :
    (preprocessAux b ls).length = ls.length := by
  induction ls generalizing b with
  | nil => rfl
  | cons l t ih => simp [preprocessAux, ih]

theorem preprocessAux_getD (b : Bool) (ls : List (List Char)) (i : Nat)
    (h : i < ls.length) :
    (preprocessAux b ls).getD i [] =
      (if (if isFenceLine (ls.getD i []) then !fenceState b (ls.take i)
           else fenceState b (ls.take i)) = true
       then ls.getD i [] else subDel (ls.getD i [])) := by
  induction ls generalizing b i with
  | nil => simp at h
  | cons l t ih =>
    cases i with
    | zero => simp [preprocessAux, fenceState]
    | succ j =>
      have hj : j < t.length := by simpa using h
      simp only [preprocessAux, List.getD_cons_succ, List.take_succ_cons]
      rw [ih _ j hj]
      simp [fenceState]

/-- Concrete document used to witness the C1 theorem: a fenced code block
containing a strikethrough-looking line, followed by one outside it. -/
def c1Lines : List (List Char) :=
  [String.toList "```", String.toList "~~y~~", String.toList "```",
   String.toList "~~z~~"]

/-- **C1.** In `MarkdownConverter._preprocess_markdown`, a line processed
while the fenced-code flag is set (and which is not itself a fence line,
i.e. a line lying strictly inside a fenced code block) is emitted
byte-identical, while a line processed with the flag clear is emitted as the
result of the `~~text~~ -> <del>text</del>` substitution `subDel`. -/
theorem c1_strikethrough_preserves_fenced_code (lines : List (List Char))
    (i : Nat) (h : i < lines.length) :
    (fenceState false (lines.take i) = true ∧
        isFenceLine (lines.getD i []) = false →
      (preprocessAux false lines).getD i [] = lines.getD i []) ∧
    ((if isFenceLine (lines.getD i []) then !fenceState false (lines.take i)
        else fenceState false (lines.take i)) = false →
      (preprocessAux false lines).getD i [] = subDel (lines.getD i [])) := by
  constructor
  · intro hin
    obtain ⟨h1, h2⟩ := hin
    have e := preprocessAux_getD false lines i h
    simp only [List.getD_eq_getElem?_getD] at h2
    simp [h1, h2] at e
    simpa using e
  · intro h1
    have e := preprocessAux_getD false lines i h
    simp only [List.getD_eq_getElem?_getD] at h1
    simp [h1] at e
    simpa using e

/-- Witness for C1: in `c1Lines`, line 1 sits inside the fenced block and is
preserved, line 3 sits outside and is rewritten. -/
theorem c1_strikethrough_witness :
    (1 < c1Lines.length ∧
      (preprocessAux false c1Lines).getD 1 [] = c1Lines.getD 1 []) ∧
    (3 < c1Lines.length ∧
      (preprocessAux false c1Lines).getD 3 [] = subDel (c1Lines.getD 3 [])) :=
  ⟨⟨by decide,
    (c1_strikethrough_preserves_fenced_code c1Lines 1 (by decide)).1
      ⟨by decide, by decide⟩⟩,
   ⟨by decide,
    (c1_strikethrough_preserves_fenced_code c1Lines 3 (by decide)).2
      (by decide)⟩⟩

/-! ## Retry policy and error handling (wechat_api.py)

The decorator `retry_on_error(max_retries=3, backoff_factor=1.0,
retryable_errors=(40001, 42001, 45009))` runs the wrapped operation up to
`max_retries + 1` times, sleeping `backoff_factor * 2 ** retry_count`
seconds plus a uniform random jitter in `[0, 0.5]` before each retry and
calling `token_manager.clear_cache()` additionally when the code is 40001;
codes outside the tuple are re-raised at once, and when retries are
exhausted the current (= last observed) error is raised.

`WeChatAPI._request` additionally performs, inside a single invocation, a
one-shot token refresh: on `errcode == 40001` it clears the token cache,
re-fetches a token and re-issues the HTTP call exactly once.
`WeChatAPI.upload_image` posts directly and does not go through `_request`.

A server is modelled as `resp : Nat → Int`, giving the `errcode` of the
k-th data HTTP call (0 = success); token fetches are modelled as succeeding
and are not counted. -/

/-- Observable effects of an API-client run: number of data HTTP calls,
number of `clear_cache()` invocations, and the waits slept between retries
(deterministic back-off part plus the sampled jitter). -/
structure RunState where
  calls : Nat
  clears : Nat
  waits : List ℚ
deriving DecidableEq, Repr

/-- Initial run state. -/
def initRun : RunState := ⟨0, 0, []⟩

/-- Whitelist of transient error codes of `retry_on_error`. -/
def retryableErrors : List Int := [40001, 42001, 45009]

/-- The token-refresh step of the decorator: `clear_cache()` is invoked
only when the error code is 40001. -/
def bumpClears (e : Int) (s : RunState) : RunState :=
  if e = 40001 then { s with clears := s.clears + 1 } else s

/-- One bare HTTP attempt of `upload_image`: issue the post, succeed iff the
response carries a URL (modelled as errcode 0), else raise the code. -/
def uploadCall (resp : Nat → Int) (s : RunState) : Except Int Unit × RunState :=
  let e := resp s.calls
  let s1 : RunState := { s with calls := s.calls + 1 }
  if e = 0 then (Except.ok (), s1) else (Except.error e, s1)

/-- One invocation of `WeChatAPI._request`: issue the call; on
`errcode == 40001` clear the token cache, re-authenticate and re-issue the
call exactly once, then raise the (second) code if still non-zero; any other
non-zero code raises immediately. -/
def requestStep (resp : Nat → Int) (s : RunState) : Except Int Unit × RunState :=
  let e1 := resp s.calls
  let s1 : RunState := { s with calls := s.calls + 1 }
  if e1 = 0 then (Except.ok (), s1)
  else if e1 = 40001 then
    let s2 : RunState := { s1 with clears := s1.clears + 1 }
    let e2 := resp s1.calls
    let s3 : RunState := { s2 with calls := s2.calls + 1 }
    if e2 = 0 then (Except.ok (), s3) else (Except.error e2, s3)
  else (Except.error e1, s1)

/-- The loop of `retry_on_error`: `attempt` is the current `retry_count`,
`remaining` the retries still allowed (`max_retries - retry_count`). -/
def retryAux (backoff : ℚ) (jitter : Nat → ℚ) (retryable : List Int)
    (f : RunState → Except Int Unit × RunState) :
    Nat → Nat → RunState → Except Int Unit × RunState
  | _, 0, s => f s
  | attempt, r + 1, s =>
    match f s with
    | (Except.ok u, s1) => (Except.ok u, s1)
    | (Except.error e, s1) =>
      if e ∈ retryable then
        retryAux backoff jitter retryable f (attempt + 1) r
          (bumpClears e
            { s1 with waits := s1.waits ++ [backoff * 2 ^ attempt + jitter attempt] })
      else (Except.error e, s1)

/-- `upload_image` as decorated in the source:
`retry_on_error(max_retries=3, backoff_factor=1.0)` around the bare post. -/
def uploadImageRun (jitter : Nat → ℚ) (resp : Nat → Int) :
    Except Int Unit × RunState :=
  retryAux 1 jitter retryableErrors (uploadCall resp) 0 3 initRun

/-- `add_draft` as decorated in the source: the same decorator around a call
that goes through `_request`. -/
def addDraftRun (jitter : Nat → ℚ) (resp : Nat → Int) :
    Except Int Unit × RunState :=
  retryAux 1 jitter retryableErrors (requestStep resp) 0 3 initRun

/-- Index of the first HTTP call of the i-th decorator attempt of a
`_request`-based operation whose first call is call `c`: a failing attempt
consumes two calls when its first response is 40001 (the inner one-shot
retry re-issues the call) and one call otherwise. -/
def draftAttemptCallFrom (resp : Nat → Int) (c : Nat) : Nat → Nat
  | 0 => c
  | i + 1 =>
    draftAttemptCallFrom resp c i +
      (if resp (draftAttemptCallFrom resp c i) = 40001 then 2 else 1)

/-- The error code raised by the i-th decorator attempt of a
`_request`-based operation: the second response of the attempt when its
first response is 40001, the first response otherwise. -/
def draftAttemptErrFrom (resp : Nat → Int) (c : Nat) (i : Nat) : Int :=
  if resp (draftAttemptCallFrom resp c i) = 40001 then
    resp (draftAttemptCallFrom resp c i + 1)
  else resp (draftAttemptCallFrom resp c i)

theorem bumpClears_calls (e : Int) (s : RunState) :
    (bumpClears e s).calls = s.calls := by
  unfold bumpClears; split <;> rfl

theorem bumpClears_waits (e : Int) (s : RunState) :
    (bumpClears e s).waits = s.waits := by
  unfold bumpClears; split <;> rfl

theorem retryable_ne_zero {e : Int} (h : e ∈ retryableErrors) : e ≠ 0 := by
  simp only [retryableErrors, List.mem_cons, List.mem_singleton,
    List.not_mem_nil, or_false] at h
  rcases h with h | h | h <;> simp [h]

/-- Exhausting the decorator on `upload_image`: if every attempt up to the
remaining budget draws a whitelisted error code, the loop runs
`remaining + 1` attempts, raises the last observed code, and sleeps
`backoff * 2 ^ retry_count` (plus jitter) before each retry. -/
theorem uploadRetry_exhaust (backoff : ℚ) (jitter : Nat → ℚ) (resp : Nat → Int) :
    ∀ (remaining attempt : Nat) (s : RunState),
    (∀ k, k ≤ remaining → resp (s.calls + k) ∈ retryableErrors) →
    (retryAux backoff jitter retryableErrors (uploadCall resp) attempt remaining s).1
        = Except.error (resp (s.calls + remaining)) ∧
    (retryAux backoff jitter retryableErrors (uploadCall resp) attempt remaining s).2.calls
        = s.calls + remaining + 1 ∧
    (retryAux backoff jitter retryableErrors (uploadCall resp) attempt remaining s).2.waits
        = s.waits ++ (List.range remaining).map
            (fun k => backoff * 2 ^ (attempt + k) + jitter (attempt + k)) := by
  intro remaining
  induction remaining with
  | zero =>
    intro attempt s hmem
    have h0 : resp s.calls ∈ retryableErrors := by simpa using hmem 0 (by omega)
    have ne0 : ¬ resp s.calls = 0 := retryable_ne_zero h0
    simp [retryAux, uploadCall, ne0]
  | succ r ih =>
    intro attempt s hmem
    have h0 : resp s.calls ∈ retryableErrors := by simpa using hmem 0 (by omega)
    have ne0 : ¬ resp s.calls = 0 := retryable_ne_zero h0
    have step :
        retryAux backoff jitter retryableErrors (uploadCall resp) attempt (r + 1) s =
        retryAux backoff jitter retryableErrors (uploadCall resp) (attempt + 1) r
          (bumpClears (resp s.calls)
            { calls := s.calls + 1, clears := s.clears,
              waits := s.waits ++ [backoff * 2 ^ attempt + jitter attempt] }) := by
      simp [retryAux, uploadCall, ne0, h0]
    set s3 := bumpClears (resp s.calls)
      { calls := s.calls + 1, clears := s.clears,
        waits := s.waits ++ [backoff * 2 ^ attempt + jitter attempt] } with hs3
    have hc3 : s3.calls = s.calls + 1 := by rw [hs3, bumpClears_calls]
    have hw3 : s3.waits = s.waits ++ [backoff * 2 ^ attempt + jitter attempt] := by
      rw [hs3, bumpClears_waits]
    have hmem3 : ∀ k, k ≤ r → resp (s3.calls + k) ∈ retryableErrors := by
      intro k hk
      rw [hc3]
      have := hmem (k + 1) (by omega)
      have harr : s.calls + (k + 1) = s.calls + 1 + k := by omega
      rwa [harr] at this
    obtain ⟨ih1, ih2, ih3⟩ := ih (attempt + 1) s3 hmem3
    refine ⟨?_, ?_, ?_⟩
    · rw [step, ih1, hc3]
      congr 2
      omega
    · rw [step, ih2, hc3]
      omega
    · rw [step, ih3, hw3]
      rw [List.range_succ_eq_map, List.map_cons, List.map_map, List.append_assoc]
      simp only [List.singleton_append, Nat.add_zero]
      congr 1
      congr 1
      apply List.map_congr_left
      intro k _
      simp only [Function.comp_apply, Nat.succ_eq_add_one]
      have harr : attempt + 1 + k = attempt + (k + 1) := by omega
      rw [harr]

theorem draftAttemptCallFrom_shift (resp : Nat → Int) (c : Nat) :
    ∀ i, draftAttemptCallFrom resp c (i + 1) =
      draftAttemptCallFrom resp (c + (if resp c = 40001 then 2 else 1)) i := by
  intro i
  induction i with
  | zero => rfl
  | succ j ih =>
    have hun : draftAttemptCallFrom resp c (j + 1 + 1) =
        draftAttemptCallFrom resp c (j + 1) +
          (if resp (draftAttemptCallFrom resp c (j + 1)) = 40001 then 2
           else 1) := rfl
    rw [hun, ih]
    rfl

theorem draftAttemptErrFrom_shift (resp : Nat → Int) (c i : Nat) :
    draftAttemptErrFrom resp c (i + 1) =
      draftAttemptErrFrom resp (c + (if resp c = 40001 then 2 else 1)) i := by
  unfold draftAttemptErrFrom
  rw [draftAttemptCallFrom_shift]

/-- A `_request` invocation whose observable error (per
`draftAttemptErrFrom` at its own call position) is whitelisted fails,
consuming one call — or two calls and one token invalidation when its
first response is 40001 — and raises that error. -/
theorem requestStep_fail (resp : Nat → Int) (s : RunState)
    (h : draftAttemptErrFrom resp s.calls 0 ∈ retryableErrors) :
    requestStep resp s =
      (Except.error (draftAttemptErrFrom resp s.calls 0),
       { s with calls := draftAttemptCallFrom resp s.calls 1,
                clears := s.clears +
                  (if resp s.calls = 40001 then 1 else 0) }) := by
  by_cases h1 : resp s.calls = 40001
  · have he : draftAttemptErrFrom resp s.calls 0 = resp (s.calls + 1) := by
      simp [draftAttemptErrFrom, draftAttemptCallFrom, h1]
    rw [he] at h ⊢
    have hne2 : ¬ resp (s.calls + 1) = 0 := retryable_ne_zero h
    simp [requestStep, h1, hne2, draftAttemptCallFrom]
  · have he : draftAttemptErrFrom resp s.calls 0 = resp s.calls := by
      simp [draftAttemptErrFrom, draftAttemptCallFrom, h1]
    rw [he] at h ⊢
    have hne1 : ¬ resp s.calls = 0 := retryable_ne_zero h
    simp [requestStep, h1, hne1, draftAttemptCallFrom]

/-- Exhausting the decorator on a `_request`-based operation: if every
attempt up to the remaining budget raises a whitelisted error code, the
loop runs `remaining + 1` attempts, raises the last observed code, and
sleeps `backoff * 2 ^ retry_count` (plus jitter) before each retry. -/
theorem draftRetry_exhaust (backoff : ℚ) (jitter : Nat → ℚ) (resp : Nat → Int) :
    ∀ (remaining attempt : Nat) (s : RunState),
    (∀ i, i ≤ remaining → draftAttemptErrFrom resp s.calls i ∈ retryableErrors) →
    (retryAux backoff jitter retryableErrors (requestStep resp) attempt remaining s).1
        = Except.error (draftAttemptErrFrom resp s.calls remaining) ∧
    (retryAux backoff jitter retryableErrors (requestStep resp) attempt remaining s).2.calls
        = draftAttemptCallFrom resp s.calls (remaining + 1) ∧
    (retryAux backoff jitter retryableErrors (requestStep resp) attempt remaining s).2.waits
        = s.waits ++ (List.range remaining).map
            (fun k => backoff * 2 ^ (attempt + k) + jitter (attempt + k)) := by
  intro remaining
  induction remaining with
  | zero =>
    intro attempt s hmem
    have h0 := hmem 0 (by omega)
    have hbase :
        retryAux backoff jitter retryableErrors (requestStep resp) attempt 0 s =
          requestStep resp s := rfl
    rw [hbase, requestStep_fail resp s h0]
    simp
  | succ r ih =>
    intro attempt s hmem
    have h0 := hmem 0 (by omega)
    have hfail := requestStep_fail resp s h0
    have step :
        retryAux backoff jitter retryableErrors (requestStep resp) attempt (r + 1) s =
        retryAux backoff jitter retryableErrors (requestStep resp) (attempt + 1) r
          (bumpClears (draftAttemptErrFrom resp s.calls 0)
            { calls := draftAttemptCallFrom resp s.calls 1,
              clears := s.clears + (if resp s.calls = 40001 then 1 else 0),
              waits := s.waits ++ [backoff * 2 ^ attempt + jitter attempt] }) := by
      rw [retryAux, hfail]
      simp [h0]
    set s3 := bumpClears (draftAttemptErrFrom resp s.calls 0)
      { calls := draftAttemptCallFrom resp s.calls 1,
        clears := s.clears + (if resp s.calls = 40001 then 1 else 0),
        waits := s.waits ++ [backoff * 2 ^ attempt + jitter attempt] } with hs3
    have hc3 : s3.calls = draftAttemptCallFrom resp s.calls 1 := by
      rw [hs3, bumpClears_calls]
    have hw3 : s3.waits = s.waits ++ [backoff * 2 ^ attempt + jitter attempt] := by
      rw [hs3, bumpClears_waits]
    have hcf : draftAttemptCallFrom resp s.calls 1 =
        s.calls + (if resp s.calls = 40001 then 2 else 1) := rfl
    have hmem3 : ∀ i, i ≤ r →
        draftAttemptErrFrom resp s3.calls i ∈ retryableErrors := by
      intro i hi
      rw [hc3, hcf, ← draftAttemptErrFrom_shift]
      exact hmem (i + 1) (by omega)
    obtain ⟨ih1, ih2, ih3⟩ := ih (attempt + 1) s3 hmem3
    refine ⟨?_, ?_, ?_⟩
    · rw [step, ih1, hc3, hcf, ← draftAttemptErrFrom_shift]
    · rw [step, ih2, hc3, hcf, ← draftAttemptCallFrom_shift]
    · rw [step, ih3, hw3]
      rw [List.range_succ_eq_map, List.map_cons, List.map_map, List.append_assoc]
      simp only [List.singleton_append, Nat.add_zero]
      congr 1
      congr 1
      apply List.map_congr_left
      intro k _
      simp only [Function.comp_apply, Nat.succ_eq_add_one]
      have harr : attempt + 1 + k = attempt + (k + 1) := by omega
      rw [harr]

/-- **C5.** The retry policy wrapping both decorated operations,
`upload_image` and `add_draft`: whitelisted codes are retried up to the
configured maximum (3 retries, 4 attempts in total) with waits of
`backoff_base * 2 ^ attempt` seconds plus the sampled jitter between
attempts, exhaustion propagates the last observed error, and a code
outside the whitelist propagates at once with no retry and no wait. For
`add_draft` an attempt's observable error is the code `_request` raises
(`draftAttemptErrFrom`), and a failing attempt consumes two HTTP calls
when its first response is 40001 and one otherwise
(`draftAttemptCallFrom`). -/
theorem c5_retry_policy (jitter : Nat → ℚ) (resp : Nat → Int) :
    ((∀ k, k ≤ 3 → resp k ∈ retryableErrors) →
      (uploadImageRun jitter resp).1 = Except.error (resp 3) ∧
      (uploadImageRun jitter resp).2.calls = 4 ∧
      (uploadImageRun jitter resp).2.waits =
        [1 * 2 ^ 0 + jitter 0, 1 * 2 ^ 1 + jitter 1, 1 * 2 ^ 2 + jitter 2]) ∧
    (resp 0 ≠ 0 → resp 0 ∉ retryableErrors →
      uploadImageRun jitter resp = (Except.error (resp 0), ⟨1, 0, []⟩)) ∧
    ((∀ i, i ≤ 3 → draftAttemptErrFrom resp 0 i ∈ retryableErrors) →
      (addDraftRun jitter resp).1 =
        Except.error (draftAttemptErrFrom resp 0 3) ∧
      (addDraftRun jitter resp).2.calls = draftAttemptCallFrom resp 0 4 ∧
      (addDraftRun jitter resp).2.waits =
        [1 * 2 ^ 0 + jitter 0, 1 * 2 ^ 1 + jitter 1, 1 * 2 ^ 2 + jitter 2]) ∧
    (resp 0 ≠ 0 → resp 0 ∉ retryableErrors →
      addDraftRun jitter resp = (Except.error (resp 0), ⟨1, 0, []⟩)) := by
  refine ⟨?_, ?_, ?_, ?_⟩
  · intro hmem
    have h := uploadRetry_exhaust 1 jitter resp 3 0 initRun
      (by intro k hk; simpa [initRun] using hmem k hk)
    obtain ⟨h1, h2, h3⟩ := h
    refine ⟨?_, ?_, ?_⟩
    · simpa [uploadImageRun, initRun] using h1
    · simpa [uploadImageRun, initRun] using h2
    · rw [uploadImageRun] at *
      rw [h3]
      simp [initRun, List.range_succ]
  · intro hne hnot
    simp [uploadImageRun, retryAux, uploadCall, initRun, hne, hnot]
  · intro hmem
    have h := draftRetry_exhaust 1 jitter resp 3 0 initRun
      (by intro i hi; exact hmem i hi)
    obtain ⟨h1, h2, h3⟩ := h
    refine ⟨?_, ?_, ?_⟩
    · exact h1
    · exact h2
    · rw [addDraftRun] at *
      rw [h3]
      simp [initRun, List.range_succ]
  · intro hne hnot
    have h40 : ¬ resp 0 = 40001 := by
      intro he
      exact hnot (by rw [he]; decide)
    simp [addDraftRun, retryAux, requestStep, initRun, hne, hnot, h40]

/-- Witness for C5: a server that always answers 42001 exhausts all four
attempts of either operation with the documented waits; a server answering
50002 fails either operation at once. -/
theorem c5_retry_policy_witness :
    ((uploadImageRun (fun _ => 0) (fun _ => 42001)).1 = Except.error 42001 ∧
     (uploadImageRun (fun _ => 0) (fun _ => 42001)).2.calls = 4 ∧
     (uploadImageRun (fun _ => 0) (fun _ => 42001)).2.waits =
       [1 * 2 ^ 0 + 0, 1 * 2 ^ 1 + 0, 1 * 2 ^ 2 + 0]) ∧
    uploadImageRun (fun _ => 0) (fun _ => 50002) =
      (Except.error 50002, ⟨1, 0, []⟩) ∧
    ((addDraftRun (fun _ => 0) (fun _ => 42001)).1 = Except.error 42001 ∧
     (addDraftRun (fun _ => 0) (fun _ => 42001)).2.calls = 4 ∧
     (addDraftRun (fun _ => 0) (fun _ => 42001)).2.waits =
       [1 * 2 ^ 0 + 0, 1 * 2 ^ 1 + 0, 1 * 2 ^ 2 + 0]) ∧
    addDraftRun (fun _ => 0) (fun _ => 50002) =
      (Except.error 50002, ⟨1, 0, []⟩) :=
  ⟨(c5_retry_policy (fun _ => 0) (fun _ => 42001)).1 (fun k _ => by decide),
   (c5_retry_policy (fun _ => 0) (fun _ => 50002)).2.1 (by decide) (by decide),
   (c5_retry_policy (fun _ => 0) (fun _ => 42001)).2.2.1
     (fun i _ => by simp [draftAttemptErrFrom, retryableErrors]),
   (c5_retry_policy (fun _ => 0) (fun _ => 50002)).2.2.2 (by decide) (by decide)⟩

/-- **C2 counterexample.** Against a server that answers 40001 to every
call, neither `upload_image` nor `add_draft` invalidates the token exactly
once and fails after exactly one extra call, as the claim states: the
40001 retry is also governed by the decorator's general policy (upload: 4
calls and 3 invalidations; draft: 8 calls and 7 invalidations). -/
theorem c2_counterexample :
    ¬ (((uploadImageRun (fun _ => 0) (fun _ => 40001)).2.calls = 2 ∧
        (uploadImageRun (fun _ => 0) (fun _ => 40001)).2.clears = 1) ∨
       ((addDraftRun (fun _ => 0) (fun _ => 40001)).2.calls = 2 ∧
        (addDraftRun (fun _ => 0) (fun _ => 40001)).2.clears = 1)) := by
  decide

/-- **C2 (amended).** Operations routed through `WeChatAPI._request` (such
as draft creation) perform, within a single invocation and regardless of
the decorator, a one-shot 40001 recovery: exactly one token invalidation
and exactly one immediate re-issue of the HTTP call, succeeding iff the
second response succeeds; `upload_image` posts directly and performs no
such inner retry, so its 40001 handling is solely the decorator's general
retry policy (which whitelists 40001). -/
theorem c2_request_one_shot_refresh (resp : Nat → Int) (s : RunState)
    (h : resp s.calls = 40001) :
    requestStep resp s =
      (if resp (s.calls + 1) = 0 then Except.ok ()
       else Except.error (resp (s.calls + 1)),
       { s with calls := s.calls + 2, clears := s.clears + 1 }) ∧
    uploadCall resp s = (Except.error 40001, { s with calls := s.calls + 1 }) := by
  constructor
  · by_cases h2 : resp (s.calls + 1) = 0 <;> simp [requestStep, h, h2]
  · simp [uploadCall, h]

/-- Witness for the amended C2: on a first 40001 response, `_request` clears
once and re-issues once; the bare upload call just raises. -/
theorem c2_request_one_shot_refresh_witness :
    (fun _ : Nat => (40001 : Int)) initRun.calls = 40001 ∧
    requestStep (fun _ => 40001) initRun =
      (Except.error 40001, { calls := 2, clears := 1, waits := [] }) ∧
    uploadCall (fun _ => 40001) initRun =
      (Except.error 40001, { calls := 1, clears := 0, waits := [] }) :=
  ⟨rfl,
   (c2_request_one_shot_refresh (fun _ => 40001) initRun rfl).1,
   (c2_request_one_shot_refresh (fun _ => 40001) initRun rfl).2⟩

/-! ## Token manager (wechat_api.py `TokenManager`, config.py token cache)

`get_token(force_refresh)` first consults the in-memory token (truthy value
and `now < expires_at`), then the durable file cache (present, same appid,
`now < expires_at`, hydrating memory on a hit), and otherwise performs a
credential exchange; `_fetch_token` stores
`expires_at = now + expires_in - 300` in memory and, via
`config.save_token`, the same value with the appid in the token file.
The network exchange is modelled by `fetch`; `fetches` counts exchanges. -/

/-- State of `TokenManager` plus the durable token file of `Config`. -/
structure TMState where
  appid : String
  memToken : Option String
  memExp : Int
  fileTok : Option (String × Int × String)
  fetches : Nat
deriving DecidableEq, Repr

/-- Python truthiness of `self._access_token`: `None` and `""` are falsy. -/
def tokTruthy : Option String → Bool
  | none => false
  | some t => !(t == "")

/-- The file-cache test of `get_token`: entry present, same appid, and
`now < expires_at`; returns the token and expiry to hydrate memory with. -/
def cacheHit (now : Int) (appid : String) :
    Option (String × Int × String) → Option (String × Int)
  | none => none
  | some (t, e, aid) => if aid = appid ∧ now < e then some (t, e) else none

/-- `TokenManager._fetch_token` together with `Config.save_token`: on
success store `{token, now + expires_in - 300}` in memory and in the token
file (tagged with the appid); on failure raise the server's code. -/
def fetchToken (now : Int) (fetch : Except Int (String × Int)) (s : TMState) :
    Except Int String × TMState :=
  match fetch with
  | Except.ok (t, expiresIn) =>
      (Except.ok t,
       { s with memToken := some t, memExp := now + expiresIn - 300,
                fileTok := some (t, now + expiresIn - 300, s.appid),
                fetches := s.fetches + 1 })
  | Except.error e => (Except.error e, { s with fetches := s.fetches + 1 })

/-- `TokenManager.get_token`. -/
def getToken (now : Int) (fetch : Except Int (String × Int)) (force : Bool)
    (s : TMState) : Except Int String × TMState :=
  if force = false ∧ tokTruthy s.memToken = true ∧ now < s.memExp then
    (Except.ok (s.memToken.getD ""), s)
  else
    match (if force then none else cacheHit now s.appid s.fileTok) with
    | some (t, e) => (Except.ok t, { s with memToken := some t, memExp := e })
    | none => fetchToken now fetch s

/-- **C4.** When the in-memory token is absent or expired and the durable
cache entry is absent or expired, `get_token(force_refresh=False)` performs
exactly one fresh credential exchange, returns the newly fetched value, and
stores it (never the stale one) with `expires_at = now + ttl - 300` in
memory and in the token file. -/
theorem c4_expired_caches_fetch_once (now : Int)
    (fetch : Except Int (String × Int)) (s : TMState) (t : String) (ttl : Int)
    (hmem : s.memToken = none ∨ s.memExp ≤ now)
    (hfile : ∀ tk e aid, s.fileTok = some (tk, e, aid) → e ≤ now)
    (hfetch : fetch = Except.ok (t, ttl)) :
    getToken now fetch false s =
      (Except.ok t,
       { s with memToken := some t, memExp := now + ttl - 300,
                fileTok := some (t, now + ttl - 300, s.appid),
                fetches := s.fetches + 1 }) := by
  have hcond : ¬ (false = false ∧ tokTruthy s.memToken = true ∧ now < s.memExp) := by
    intro hc
    rcases hmem with h | h
    · rw [h] at hc
      simp [tokTruthy] at hc
    · omega
  have hch : cacheHit now s.appid s.fileTok = none := by
    cases hft : s.fileTok with
    | none => rfl
    | some tri =>
      obtain ⟨tk, e, aid⟩ := tri
      have hle := hfile tk e aid hft
      simp only [cacheHit]
      rw [if_neg]
      intro hc
      omega
  rw [getToken, if_neg hcond]
  simp only [Bool.false_eq_true, if_false, hch]
  rw [hfetch]
  rfl

/-- Concrete empty token state used by witnesses and counterexamples. -/
def tmEx : TMState := ⟨"a", none, 0, none, 0⟩

/-- Witness for C4: empty caches at time 1000, server ttl 7200. -/
theorem c4_expired_caches_fetch_once_witness :
    (tmEx.memToken = none ∨ tmEx.memExp ≤ 1000) ∧
    getToken 1000 (Except.ok ("t", 7200)) false tmEx =
      (Except.ok "t", ⟨"a", some "t", 7900, some ("t", 7900, "a"), 1⟩) :=
  ⟨Or.inl rfl,
   c4_expired_caches_fetch_once 1000 (Except.ok ("t", 7200)) tmEx "t" 7200
     (Or.inl rfl) (by intro tk e aid h; exact absurd h (by simp [tmEx])) rfl⟩

/-- **C7 counterexample.** With a server-reported lifetime of 100 seconds
(not exceeding the 300-second safety margin), `get_token` still returns the
fresh token although its stored `expires_at = now + 100 - 300` already lies
in the past, so a returned token does not always satisfy
`now < expires_at`. -/
theorem c7_counterexample :
    (getToken 1000 (Except.ok ("t", 100)) false tmEx).1 = Except.ok "t" ∧
    (getToken 1000 (Except.ok ("t", 100)) false tmEx).2.memExp = 800 ∧
    ¬ (1000 < (getToken 1000 (Except.ok ("t", 100)) false tmEx).2.memExp) :=
  ⟨rfl, rfl, by decide⟩

/-- **C7 (amended).** Provided every successful credential exchange reports
a lifetime greater than the 300-second safety margin, every token value
returned by `get_token` satisfies `now < expires_at` in the in-memory
state; and whenever an exchange actually happened, the expiry stored in
memory and in the durable cache is `now + ttl - 300`. -/
theorem c7_token_expiry_invariant (now : Int) (fetch : Except Int (String × Int))
    (force : Bool) (s : TMState) (t : String) (s2 : TMState)
    (h : getToken now fetch force s = (Except.ok t, s2))
    (httl : ∀ tk ttl, fetch = Except.ok (tk, ttl) → 300 < ttl) :
    now < s2.memExp ∧ s2.memToken = some t ∧
    (s2.fetches = s.fetches + 1 →
      ∀ tk ttl, fetch = Except.ok (tk, ttl) →
        t = tk ∧ s2.memExp = now + ttl - 300 ∧
        s2.fileTok = some (tk, now + ttl - 300, s.appid)) := by
  unfold getToken at h
  split at h
  case isTrue hcond =>
    obtain ⟨hf, htt, hlt⟩ := hcond
    rw [Prod.mk.injEq] at h
    obtain ⟨h1, h2⟩ := h
    subst h2
    refine ⟨hlt, ?_, ?_⟩
    · cases hmt : s.memToken with
      | none => rw [hmt] at htt; simp [tokTruthy] at htt
      | some t0 =>
        rw [hmt] at h1
        simp only [Option.getD_some] at h1
        injection h1 with h1
        rw [h1]
    · intro hfe
      omega
  case isFalse hcond =>
    split at h
    case h_1 t0 e heq =>
      rw [Prod.mk.injEq] at h
      obtain ⟨h1, h2⟩ := h
      injection h1 with h1
      subst h1
      subst h2
      cases force with
      | true => simp at heq
      | false =>
        simp only [Bool.false_eq_true, if_false] at heq
        cases hft : s.fileTok with
        | none => rw [hft] at heq; simp [cacheHit] at heq
        | some tri =>
          obtain ⟨tk, e0, aid⟩ := tri
          rw [hft] at heq
          simp only [cacheHit] at heq
          split at heq
          · rename_i hc
            injection heq with heq
            rw [Prod.mk.injEq] at heq
            obtain ⟨h3, h4⟩ := heq
            subst h3
            subst h4
            refine ⟨hc.2, rfl, ?_⟩
            intro hfe
            have hfe2 : s.fetches = s.fetches + 1 := hfe
            omega
          · simp at heq
    case h_2 heq =>
      cases hfe : fetch with
      | error e =>
        rw [hfe] at h
        simp [fetchToken] at h
      | ok p =>
        obtain ⟨tk, ttl⟩ := p
        rw [hfe] at h
        simp only [fetchToken] at h
        rw [Prod.mk.injEq] at h
        obtain ⟨h1, h2⟩ := h
        injection h1 with h1
        subst h1
        subst h2
        have hlt := httl tk ttl hfe
        refine ⟨?_, rfl, ?_⟩
        · show now < now + ttl - 300
          omega
        · intro _ tk2 ttl2 hfe2
          injection hfe2 with hfe2
          rw [Prod.mk.injEq] at hfe2
          obtain ⟨h3, h4⟩ := hfe2
          subst h3
          subst h4
          exact ⟨rfl, rfl, rfl⟩

/-- The state after the witness fetch of C7: token valid until 7900. -/
def tmEx2 : TMState := ⟨"a", some "t", 7900, some ("t", 7900, "a"), 1⟩

/-- Witness for the amended C7: fresh fetch with ttl 7200 at time 1000
yields a token valid until 7900 in memory and in the durable cache. -/
theorem c7_token_expiry_invariant_witness :
    1000 < tmEx2.memExp ∧ tmEx2.memToken = some "t" :=
  ⟨(c7_token_expiry_invariant 1000 (Except.ok ("t", 7200)) false tmEx "t" tmEx2
      rfl
      (by intro tk ttl hfe; injection hfe with hfe; rw [Prod.mk.injEq] at hfe;
          obtain ⟨h1, h2⟩ := hfe; subst h2; omega)).1,
   (c7_token_expiry_invariant 1000 (Except.ok ("t", 7200)) false tmEx "t" tmEx2
      rfl
      (by intro tk ttl hfe; injection hfe with hfe; rw [Prod.mk.injEq] at hfe;
          obtain ⟨h1, h2⟩ := hfe; subst h2; omega)).2.1⟩

/-! ## Attribute scrub (converter.py `_clean_html`)

`_clean_html` iterates `soup.find_all()` (every tag of the document, in
document order) and, per tag, deletes the `id` attribute if present and
deletes the `class` attribute if present unless the tag's name is `code`.
A document is modelled by that flat iteration: a list of tags, each a name
with an attribute dictionary. -/

/-- One HTML tag as seen by `find_all()`: name plus attribute entries. -/
structure Tag where
  name : String
  attrs : List (String × String)
deriving DecidableEq, Repr

/-- The per-tag body of `_clean_html`. -/
def cleanTag (t : Tag) : Tag :=
  let a1 := t.attrs.filter (fun kv => !(kv.1 == "id"))
  let a2 := if t.name = "code" then a1
            else a1.filter (fun kv => !(kv.1 == "class"))
  ⟨t.name, a2⟩

/-- `MarkdownConverter._clean_html` over the flat tag iteration. -/
def cleanTags (ts : List Tag) : List Tag :=
  ts.map cleanTag

/-- A language class as recognised by `_process_code_blocks`
(`cls.startswith('language-')`). -/
def isLanguageClass (v : String) : Bool :=
  v.toList.take 9 = "language-".toList

/-- **C3 counterexample.** The scrub keeps the `class` attribute of every
`code` element verbatim, even when it is not a language class: a code tag
with `class="highlight"` survives the scrub although `highlight` is not a
language class needed for code rendering. -/
theorem c3_counterexample :
    cleanTags [⟨"code", [("class", "highlight")]⟩] =
      [⟨"code", [("class", "highlight")]⟩] ∧
    isLanguageClass "highlight" = false := by
  decide

/-- **C3 (amended).** After the attribute scrub no element carries an `id`
attribute, and no element carries a `class` attribute except elements whose
tag name is `code` (whose class value is kept verbatim, whether or not it
is a language class). -/
theorem c3_attribute_scrub (ts : List Tag) (t : Tag) (h : t ∈ cleanTags ts) :
    (∀ v, ("id", v) ∉ t.attrs) ∧
    (∀ v, ("class", v) ∈ t.attrs → t.name = "code") := by
  rcases List.mem_map.mp h with ⟨t0, _, rfl⟩
  constructor
  · intro v hv
    simp only [cleanTag] at hv
    by_cases hc : t0.name = "code"
    · rw [if_pos hc] at hv
      have := (List.mem_filter.mp hv).2
      simp at this
    · rw [if_neg hc] at hv
      have h1 := (List.mem_filter.mp hv).1
      have := (List.mem_filter.mp h1).2
      simp at this
  · intro v hv
    simp only [cleanTag] at hv
    by_cases hc : t0.name = "code"
    · exact hc
    · rw [if_neg hc] at hv
      have := (List.mem_filter.mp hv).2
      simp at this

/-- Witness for the amended C3: a document with a styled paragraph, an
anchored heading and a fenced code block. -/
theorem c3_attribute_scrub_witness :
    (⟨"code", [("class", "language-python")]⟩ : Tag) ∈
      cleanTags [⟨"h1", [("id", "intro")]⟩, ⟨"p", [("class", "lead")]⟩,
                 ⟨"code", [("class", "language-python")]⟩] ∧
    (∀ v, ("id", v) ∉ (⟨"code", [("class", "language-python")]⟩ : Tag).attrs) :=
  ⟨by decide,
   (c3_attribute_scrub
      [⟨"h1", [("id", "intro")]⟩, ⟨"p", [("class", "lead")]⟩,
       ⟨"code", [("class", "language-python")]⟩]
      ⟨"code", [("class", "language-python")]⟩ (by decide)).1⟩

/-! ## Draft payload construction (wechat_api.py `add_draft`) -/

/-- JSON-ish value in the draft payload. -/
inductive JVal where
  | str (s : String)
  | int (n : Int)
deriving DecidableEq, Repr

/-- The article dict built by `add_draft`, in insertion order: `title` and
`content` always; `author`, `digest`, `content_source_url`,
`thumb_media_id` only when the Python string is truthy (non-empty); the two
comment flags always. -/
def addDraftArticle (title content author digest sourceUrl thumb : String)
    (needOpen onlyFans : Int) : List (String × JVal) :=
  [("title", JVal.str title), ("content", JVal.str content)]
  ++ (if author = "" then [] else [("author", JVal.str author)])
  ++ (if digest = "" then [] else [("digest", JVal.str digest)])
  ++ (if sourceUrl = "" then []
      else [("content_source_url", JVal.str sourceUrl)])
  ++ (if thumb = "" then [] else [("thumb_media_id", JVal.str thumb)])
  ++ [("need_open_comment", JVal.int needOpen),
      ("only_fans_can_comment", JVal.int onlyFans)]

/-- **C8.** The draft payload carries each optional field iff its value is
non-empty (empty optional values are omitted, not sent as empty strings),
while the two comment flags are present for every input. -/
theorem c8_draft_payload_optional_fields
    (title content author digest sourceUrl thumb : String)
    (needOpen onlyFans : Int) :
    ((∃ v, ("author", v) ∈ addDraftArticle title content author digest
        sourceUrl thumb needOpen onlyFans) ↔ author ≠ "") ∧
    ((∃ v, ("digest", v) ∈ addDraftArticle title content author digest
        sourceUrl thumb needOpen onlyFans) ↔ digest ≠ "") ∧
    ((∃ v, ("content_source_url", v) ∈ addDraftArticle title content author
        digest sourceUrl thumb needOpen onlyFans) ↔ sourceUrl ≠ "") ∧
    ((∃ v, ("thumb_media_id", v) ∈ addDraftArticle title content author
        digest sourceUrl thumb needOpen onlyFans) ↔ thumb ≠ "") ∧
    ("need_open_comment", JVal.int needOpen) ∈ addDraftArticle title content
        author digest sourceUrl thumb needOpen onlyFans ∧
    ("only_fans_can_comment", JVal.int onlyFans) ∈ addDraftArticle title
        content author digest sourceUrl thumb needOpen onlyFans := by
  refine ⟨?_, ?_, ?_, ?_, ?_, ?_⟩
  · by_cases h : author = "" <;> simp [addDraftArticle, h]
  · by_cases h : digest = "" <;> simp [addDraftArticle, h]
  · by_cases h : sourceUrl = "" <;> simp [addDraftArticle, h]
  · by_cases h : thumb = "" <;> simp [addDraftArticle, h]
  · simp [addDraftArticle]
  · simp [addDraftArticle]

/-! ## Conversion pipeline determinism (converter.py `convert`)

`convert` preprocesses the text, feeds it to the stateful
`markdown.Markdown` parser object held in `self.md`, pushes the result
through a fixed chain of DOM rewrites — each of which re-parses its input
string afresh and depends only on that string and the theme CSS fixed at
construction — and finally calls `self.md.reset()`. The parser object is
the only mutable state shared between calls; it is modelled by an abstract
state type `σ` with a convert function `mdConvert` and a reset function
`mdReset`, the markdown library's contract being that `reset` restores the
freshly-constructed parser state. The pure tail of the pipeline (steps 2-7
and the document wrap) is modelled by `post`. -/

/-- One call of `MarkdownConverter.convert`, returning the HTML and the
parser state left behind for the next call. -/
def convertPipeline {σ : Type} (mdConvert : σ → String → String × σ)
    (mdReset : σ → σ) (post : String → String) (text : String) (s : σ) :
    String × σ :=
  let pre := preprocessMarkdown text
  let r := mdConvert s pre
  (post r.1, mdReset r.2)

/-- **C6.** Because `convert` resets the parser after every call and every
other pipeline step is a pure function of its input string, two successive
calls of `convert` on the same text (threading the converter's state) yield
identical HTML, and the converter state returns to its initial value. -/
theorem c6_convert_deterministic {σ : Type}
    (mdConvert : σ → String → String × σ) (mdReset : σ → σ)
    (post : String → String) (text : String) (s0 : σ)
    (hreset : ∀ st, mdReset st = s0) :
    (convertPipeline mdConvert mdReset post text
        (convertPipeline mdConvert mdReset post text s0).2).1 =
      (convertPipeline mdConvert mdReset post text s0).1 ∧
    (convertPipeline mdConvert mdReset post text
        (convertPipeline mdConvert mdReset post text s0).2).2 = s0 := by
  constructor <;> simp [convertPipeline, hreset]

/-- Witness for C6: a toy parser state (a call counter) whose reset returns
it to zero; both conversions of the same text agree. -/
theorem c6_convert_deterministic_witness :
    (convertPipeline (fun s t => (t, s + 1)) (fun _ => 0) id "# ~~x~~"
        ((convertPipeline (fun s t => (t, s + 1)) (fun _ => 0) id "# ~~x~~"
          (0 : Nat)).2)).1 =
      (convertPipeline (fun s t => (t, s + 1)) (fun _ => 0) id "# ~~x~~"
        (0 : Nat)).1 :=
  (c6_convert_deterministic (fun s t => (t, s + 1)) (fun _ => 0) id "# ~~x~~"
    0 (fun _ => rfl)).1

/-! ## Image upload pass (uploader.py `ImageProcessor.process_html`)

`process_html` iterates the `<img>` tags of the document. Per tag: skip
(untouched) when `img.get('src','')` is falsy or the source already points
at the platform's media host; otherwise resolve the source to a local path
(`_resolve_image_path`, returning `None` for a missing file, modelled
together with a possible raised exception by `Except Unit (Option String)`),
consult the per-run upload cache keyed by resolved path, upload on a miss
(compression included in the `upload` oracle, whose exception is modelled
as `Except.error ()`), rewrite `src`/`data-src` to the hosted URL and record
the original source in the success list; any failure records the original
source in the failure list and, when `remove_failed` is set, removes the
element. The document is modelled by the flat node list the iteration
sees. -/

/-- A node of the HTML fragment: an image (with optional `src` and
`data-src` attributes) or any other content, which the pass never touches. -/
inductive HNode where
  | img (src : Option String) (dataSrc : Option String)
  | other (content : String)
deriving DecidableEq, Repr

/-- Whether `pat` is a prefix of the second list. -/
def startsWithList : List Char → List Char → Bool
  | [], _ => true
  | _ :: _, [] => false
  | p :: ps, c :: cs => p == c && startsWithList ps cs

/-- Python's substring test `pat in s` on character lists. -/
def containsSub (pat : List Char) : List Char → Bool
  | [] => startsWithList pat []
  | c :: cs => startsWithList pat (c :: cs) || containsSub pat cs

/-- `'mmbiz.qpic.cn' in src or 'mmbizurl.cn' in src`. -/
def wechatHosted (src : String) : Bool :=
  containsSub "mmbiz.qpic.cn".toList src.toList ||
    containsSub "mmbizurl.cn".toList src.toList

/-- Lookup in the per-run `_url_cache` (resolved local path → hosted URL). -/
def lookupCache (c : List (String × String)) (p : String) : Option String :=
  (c.find? (fun kv => kv.1 == p)).map (fun kv => kv.2)

/-- Result of a processing pass: surviving nodes, success list, failure
list, and the upload cache. -/
structure PResult where
  nodes : List HNode
  succ : List String
  failed : List String
  cache : List (String × String)
deriving DecidableEq, Repr

/-- The loop body of `process_html` for a single node. -/
def stepOne (resolve : String → Except Unit (Option String))
    (upload : String → Except Unit String) (remove : Bool)
    (c : List (String × String)) : HNode → PResult
  | HNode.other s => ⟨[HNode.other s], [], [], c⟩
  | HNode.img osrc od =>
    let src := osrc.getD ""
    if src = "" then ⟨[HNode.img osrc od], [], [], c⟩
    else if wechatHosted src then ⟨[HNode.img osrc od], [], [], c⟩
    else
      match resolve src with
      | Except.error _ =>
          ⟨if remove then [] else [HNode.img osrc od], [], [src], c⟩
      | Except.ok po =>
        let p := po.getD ""
        if p = "" then
          ⟨if remove then [] else [HNode.img osrc od], [], [src], c⟩
        else
          match lookupCache c p with
          | some url => ⟨[HNode.img (some url) (some url)], [src], [], c⟩
          | none =>
            match upload p with
            | Except.ok url =>
                ⟨[HNode.img (some url) (some url)], [src], [], c ++ [(p, url)]⟩
            | Except.error _ =>
                ⟨if remove then [] else [HNode.img osrc od], [], [src], c⟩

/-- The loop of `process_html`, threading the upload cache. -/
def processAux (resolve : String → Except Unit (Option String))
    (upload : String → Except Unit String) (remove : Bool) :
    List (String × String) → List HNode → PResult
  | c, [] => ⟨[], [], [], c⟩
  | c, n :: ns =>
    let r1 := stepOne resolve upload remove c n
    let r2 := processAux resolve upload remove r1.cache ns
    ⟨r1.nodes ++ r2.nodes, r1.succ ++ r2.succ, r1.failed ++ r2.failed, r2.cache⟩

/-- `ImageProcessor.process_html` (the cache starts empty per processor). -/
def processHtml (resolve : String → Except Unit (Option String))
    (upload : String → Except Unit String) (remove : Bool)
    (ns : List HNode) : PResult :=
  processAux resolve upload remove [] ns

theorem processAux_cons (resolve : String → Except Unit (Option String))
    (upload : String → Except Unit String) (remove : Bool)
    (c : List (String × String)) (n : HNode) (ns : List HNode) :
    processAux resolve upload remove c (n :: ns) =
      ⟨(stepOne resolve upload remove c n).nodes ++
         (processAux resolve upload remove
           (stepOne resolve upload remove c n).cache ns).nodes,
       (stepOne resolve upload remove c n).succ ++
         (processAux resolve upload remove
           (stepOne resolve upload remove c n).cache ns).succ,
       (stepOne resolve upload remove c n).failed ++
         (processAux resolve upload remove
           (stepOne resolve upload remove c n).cache ns).failed,
       (processAux resolve upload remove
         (stepOne resolve upload remove c n).cache ns).cache⟩ := rfl

theorem processAux_append (resolve : String → Except Unit (Option String))
    (upload : String → Except Unit String) (remove : Bool)
    (c : List (String × String)) (xs ys : List HNode) :
    processAux resolve upload remove c (xs ++ ys) =
      ⟨(processAux resolve upload remove c xs).nodes ++
         (processAux resolve upload remove
           (processAux resolve upload remove c xs).cache ys).nodes,
       (processAux resolve upload remove c xs).succ ++
         (processAux resolve upload remove
           (processAux resolve upload remove c xs).cache ys).succ,
       (processAux resolve upload remove c xs).failed ++
         (processAux resolve upload remove
           (processAux resolve upload remove c xs).cache ys).failed,
       (processAux resolve upload remove
         (processAux resolve upload remove c xs).cache ys).cache⟩ := by
  induction xs generalizing c with
  | nil => rfl
  | cons n t ih =>
    rw [List.cons_append, processAux_cons, processAux_cons]
    rw [ih]
    simp [List.append_assoc]

/-- **C9.** With `remove_failed = True`, an image whose source fails —
resolution returns no local file, resolution raises, or the upload of its
(uncached) resolved path raises — is removed from the output HTML and its
source is appended to the failure list, while the remaining nodes before
and after it are processed exactly as they would otherwise be: the success
list and the surviving nodes are those of the document without the failing
image, and processing of the following images is not aborted. -/
theorem c9_failed_image_isolated
    (resolve : String → Except Unit (Option String))
    (upload : String → Except Unit String) (pre post : List HNode)
    (c : List (String × String)) (s : String) (d : Option String)
    (hs : ¬ s = "") (hw : wechatHosted s = false)
    (hfail : resolve s = Except.ok none ∨ resolve s = Except.error () ∨
      (∃ p, resolve s = Except.ok (some p) ∧ ¬ p = "" ∧
        lookupCache (processAux resolve upload true c pre).cache p = none ∧
        upload p = Except.error ())) :
    processAux resolve upload true c (pre ++ HNode.img (some s) d :: post) =
      ⟨(processAux resolve upload true c pre).nodes ++
         (processAux resolve upload true
           (processAux resolve upload true c pre).cache post).nodes,
       (processAux resolve upload true c pre).succ ++
         (processAux resolve upload true
           (processAux resolve upload true c pre).cache post).succ,
       (processAux resolve upload true c pre).failed ++ s ::
         (processAux resolve upload true
           (processAux resolve upload true c pre).cache post).failed,
       (processAux resolve upload true
         (processAux resolve upload true c pre).cache post).cache⟩ := by
  have hstep :
      stepOne resolve upload true (processAux resolve upload true c pre).cache
        (HNode.img (some s) d) =
      ⟨[], [], [s], (processAux resolve upload true c pre).cache⟩ := by
    rcases hfail with h | h | ⟨p, h1, h2, h3, h4⟩
    · simp [stepOne, hs, hw, h]
    · simp [stepOne, hs, hw, h]
    · simp [stepOne, hs, hw, h1, h2, h3, h4]
  rw [processAux_append, processAux_cons, hstep]
  simp

/-- Image sources used by the C9 witness: `a.png` is missing, everything
else resolves to the absolute path `/b`. -/
def resolveW (x : String) : Except Unit (Option String) :=
  if x = "a.png" then Except.ok none else Except.ok (some "/b")

/-- Upload oracle of the C9 witness: every upload succeeds with a fixed
hosted URL. -/
def uploadW (_ : String) : Except Unit String :=
  Except.ok "http://w/1"

/-- Witness for C9: `a.png` is missing and gets removed and recorded as a
failure; the following image `b.png` still uploads and succeeds. -/
theorem c9_failed_image_isolated_witness :
    (¬ "a.png" = "") ∧
    processAux resolveW uploadW true []
        ([HNode.other "p"] ++ HNode.img (some "a.png") none ::
          [HNode.img (some "b.png") none]) =
      ⟨[HNode.other "p",
        HNode.img (some "http://w/1") (some "http://w/1")],
       ["b.png"], ["a.png"], [("/b", "http://w/1")]⟩ :=
  ⟨by decide,
   (c9_failed_image_isolated resolveW uploadW [HNode.other "p"]
      [HNode.img (some "b.png") none] [] "a.png" none
      (by decide) (by decide) (Or.inl rfl)).trans (by decide)⟩

theorem stepOne_no_empty_source (resolve : String → Except Unit (Option String))
    (upload : String → Except Unit String) (remove : Bool)
    (c : List (String × String)) (n : HNode) :
    "" ∉ (stepOne resolve upload remove c n).succ ∧
    "" ∉ (stepOne resolve upload remove c n).failed := by
  cases n with
  | other s => simp [stepOne]
  | img osrc od =>
    by_cases h1 : osrc.getD "" = ""
    · simp [stepOne, h1]
    · have h1e : ¬ ("" = osrc.getD "") := fun hx => h1 hx.symm
      by_cases h2 : wechatHosted (osrc.getD "") = true
      · simp [stepOne, h1, h2]
      · cases hr : resolve (osrc.getD "") with
        | error u => simp [stepOne, h1, h2, hr, h1e]
        | ok po =>
          by_cases h3 : po.getD "" = ""
          · simp [stepOne, h1, h2, hr, h3, h1e]
          · cases hl : lookupCache c (po.getD "") with
            | some url => simp [stepOne, h1, h2, hr, h3, hl, h1e]
            | none =>
              cases hu : upload (po.getD "") with
              | ok url => simp [stepOne, h1, h2, hr, h3, hl, hu, h1e]
              | error u => simp [stepOne, h1, h2, hr, h3, hl, hu, h1e]

theorem processAux_no_empty_source
    (resolve : String → Except Unit (Option String))
    (upload : String → Except Unit String) (remove : Bool) :
    ∀ (ns : List HNode) (c : List (String × String)),
    "" ∉ (processAux resolve upload remove c ns).succ ∧
    "" ∉ (processAux resolve upload remove c ns).failed := by
  intro ns
  induction ns with
  | nil => intro c; simp [processAux]
  | cons n t ih =>
    intro c
    rw [processAux_cons]
    have hstep := stepOne_no_empty_source resolve upload remove c n
    have hrest := ih (stepOne resolve upload remove c n).cache
    constructor
    · simp only [List.mem_append]
      intro hx
      rcases hx with hx | hx
      · exact hstep.1 hx
      · exact hrest.1 hx
    · simp only [List.mem_append]
      intro hx
      rcases hx with hx | hx
      · exact hstep.2 hx
      · exact hrest.2 hx

/-- **C10.** An `img` whose `src` attribute is absent or empty is left
completely untouched in place (never removed, never rewritten), the nodes
around it are processed as usual, and the empty source appears in neither
the success list nor the failure list of the pass. -/
theorem c10_empty_src_untouched (resolve : String → Except Unit (Option String))
    (upload : String → Except Unit String) (remove : Bool)
    (c : List (String × String)) (pre post : List HNode)
    (osrc : Option String) (d : Option String)
    (h : osrc = none ∨ osrc = some "") :
    processAux resolve upload remove c (pre ++ HNode.img osrc d :: post) =
      ⟨(processAux resolve upload remove c pre).nodes ++ HNode.img osrc d ::
         (processAux resolve upload remove
           (processAux resolve upload remove c pre).cache post).nodes,
       (processAux resolve upload remove c pre).succ ++
         (processAux resolve upload remove
           (processAux resolve upload remove c pre).cache post).succ,
       (processAux resolve upload remove c pre).failed ++
         (processAux resolve upload remove
           (processAux resolve upload remove c pre).cache post).failed,
       (processAux resolve upload remove
         (processAux resolve upload remove c pre).cache post).cache⟩ ∧
    "" ∉ (processAux resolve upload remove c
            (pre ++ HNode.img osrc d :: post)).succ ∧
    "" ∉ (processAux resolve upload remove c
            (pre ++ HNode.img osrc d :: post)).failed := by
  have hstep :
      stepOne resolve upload remove
        (processAux resolve upload remove c pre).cache (HNode.img osrc d) =
      ⟨[HNode.img osrc d], [], [],
       (processAux resolve upload remove c pre).cache⟩ := by
    rcases h with rfl | rfl <;> simp [stepOne]
  refine ⟨?_, (processAux_no_empty_source resolve upload remove _ c).1,
    (processAux_no_empty_source resolve upload remove _ c).2⟩
  rw [processAux_append, processAux_cons, hstep]
  simp

/-- Witness for C10: a src-less image between two others survives untouched
and is recorded nowhere. -/
theorem c10_empty_src_untouched_witness :
    ((none : Option String) = none ∨ (none : Option String) = some "") ∧
    processAux resolveW uploadW true []
        ([HNode.other "p"] ++ HNode.img none none ::
          [HNode.img (some "b.png") none]) =
      ⟨[HNode.other "p", HNode.img none none,
        HNode.img (some "http://w/1") (some "http://w/1")],
       ["b.png"], [], [("/b", "http://w/1")]⟩ :=
  ⟨Or.inl rfl,
   ((c10_empty_src_untouched resolveW uploadW true [] [HNode.other "p"]
      [HNode.img (some "b.png") none] none none (Or.inl rfl)).1).trans
     (by decide)⟩

end WechatMP
